import Mathlib

set_option maxRecDepth 100000

/-!
Verification development for the question-ingestion pipeline of `main.py`
(class `QuestionProcessor`).  The pipeline reads a YAML question document,
validates each record, deduplicates by normalized question text against a
spreadsheet store and a relational (SQLite) store, and appends accepted
records to both stores.

The embedding below translates the relevant Python functions into
executable Lean definitions: strings stay strings, the two stores become
lists of rows, the SQLite `questions` table becomes a list of rows keyed by
the first column (`uuid`), and the interactive duplicate-confirmation
prompt becomes a boolean parameter (`promptYes` = the operator typed `y`).
-/

/-! ### Python `str.strip` / `str.lower` -/

/-- The whitespace characters removed by Python's default `str.strip()`
(restricted to the ASCII range used by the pipeline). -/
def isSpaceChar (c : Char) : Bool :=
  c = ' ' || c = '\t' || c = '\n' || c = '\r' || c = '\x0b' || c = '\x0c'

/-- Remove the maximal all-whitespace suffix of a character list
(the trailing half of Python's `str.strip()`). -/
def trimTrail : List Char → List Char
  | [] => []
  | a :: t =>
    match trimTrail t with
    | [] => if isSpaceChar a then [] else [a]
    | r => a :: r

/-- Python `str.strip()` on a character list: drop the maximal whitespace
from both ends. -/
def stripList (l : List Char) : List Char :=
  trimTrail (l.dropWhile isSpaceChar)

/-- Python `str.strip()`. -/
def pyStrip (s : String) : String := String.mk (stripList s.data)

/-- Python `str.lower()` (ASCII case folding). -/
def pyLower (s : String) : String := String.mk (s.data.map Char.toLower)

/-- The normalization applied by the duplicate index:
`text.strip().lower()`. -/
def normText (s : String) : String := pyLower (pyStrip s)

/-! ### MD5 (from `hashlib.md5`), used by `generate_uuid`

Machine words are `Nat` with explicit reduction mod `2^32`. -/

/-- Left-rotation of a 32-bit word (held in a `Nat`). -/
def rotl32 (x s : Nat) : Nat :=
  ((x <<< s) % 4294967296) ||| (x >>> (32 - s))

/-- The 64 MD5 round constants `K[i] = floor(2^32 * |sin(i+1)|)`. -/
def md5K : List Nat :=
  [0xd76aa478, 0xe8c7b756, 0x242070db, 0xc1bdceee,
   0xf57c0faf, 0x4787c62a, 0xa8304613, 0xfd469501,
   0x698098d8, 0x8b44f7af, 0xffff5bb1, 0x895cd7be,
   0x6b901122, 0xfd987193, 0xa679438e, 0x49b40821,
   0xf61e2562, 0xc040b340, 0x265e5a51, 0xe9b6c7aa,
   0xd62f105d, 0x02441453, 0xd8a1e681, 0xe7d3fbc8,
   0x21e1cde6, 0xc33707d6, 0xf4d50d87, 0x455a14ed,
   0xa9e3e905, 0xfcefa3f8, 0x676f02d9, 0x8d2a4c8a,
   0xfffa3942, 0x8771f681, 0x6d9d6122, 0xfde5380c,
   0xa4beea44, 0x4bdecfa9, 0xf6bb4b60, 0xbebfbc70,
   0x289b7ec6, 0xeaa127fa, 0xd4ef3085, 0x04881d05,
   0xd9d4d039, 0xe6db99e5, 0x1fa27cf8, 0xc4ac5665,
   0xf4292244, 0x432aff97, 0xab9423a7, 0xfc93a039,
   0x655b59c3, 0x8f0ccc92, 0xffeff47d, 0x85845dd1,
   0x6fa87e4f, 0xfe2ce6e0, 0xa3014314, 0x4e0811a1,
   0xf7537e82, 0xbd3af235, 0x2ad7d2bb, 0xeb86d391]

/-- The 64 MD5 per-round rotation amounts. -/
def md5S : List Nat :=
  [7, 12, 17, 22, 7, 12, 17, 22, 7, 12, 17, 22, 7, 12, 17, 22,
   5, 9, 14, 20, 5, 9, 14, 20, 5, 9, 14, 20, 5, 9, 14, 20,
   4, 11, 16, 23, 4, 11, 16, 23, 4, 11, 16, 23, 4, 11, 16, 23,
   6, 10, 15, 21, 6, 10, 15, 21, 6, 10, 15, 21, 6, 10, 15, 21]

/-- The MD5 nonlinear round function (round selected by index `i`). -/
def md5F (i b c d : Nat) : Nat :=
  if i < 16 then (b &&& c) ||| ((b ^^^ 0xffffffff) &&& d)
  else if i < 32 then (d &&& b) ||| ((d ^^^ 0xffffffff) &&& c)
  else if i < 48 then b ^^^ c ^^^ d
  else c ^^^ (b ||| (d ^^^ 0xffffffff))

/-- The MD5 message-word schedule. -/
def md5G (i : Nat) : Nat :=
  if i < 16 then i
  else if i < 32 then (5 * i + 1) % 16
  else if i < 48 then (3 * i + 5) % 16
  else (7 * i) % 16

/-- Little-endian 32-bit word number `g` of a 64-byte chunk. -/
def leWord (chunk : List Nat) (g : Nat) : Nat :=
  chunk.getD (4 * g) 0 + 256 * chunk.getD (4 * g + 1) 0 +
    65536 * chunk.getD (4 * g + 2) 0 + 16777216 * chunk.getD (4 * g + 3) 0

/-- One MD5 round on the state `(a, b, c, d)`. -/
def md5Round (chunk : List Nat) (st : Nat × Nat × Nat × Nat) (i : Nat) :
    Nat × Nat × Nat × Nat :=
  let (a, b, c, d) := st
  let f := (md5F i b c d + a + md5K.getD i 0 + leWord chunk (md5G i)) % 4294967296
  (d, (b + rotl32 f (md5S.getD i 0)) % 4294967296, b, c)

/-- Process one 64-byte chunk: 64 rounds, then add into the running state. -/
def md5Chunk (st : Nat × Nat × Nat × Nat) (chunk : List Nat) :
    Nat × Nat × Nat × Nat :=
  let (a0, b0, c0, d0) := st
  let (a, b, c, d) := (List.range 64).foldl (md5Round chunk) (a0, b0, c0, d0)
  ((a0 + a) % 4294967296, (b0 + b) % 4294967296,
   (c0 + c) % 4294967296, (d0 + d) % 4294967296)

/-- The low 8 bytes of `n`, little-endian. -/
def leBytes8 (n : Nat) : List Nat :=
  (List.range 8).map (fun i => (n >>> (8 * i)) % 256)

/-- MD5 padding: append `0x80`, zero-pad to 56 mod 64, append the bit
length as a little-endian 64-bit quantity. -/
def md5Pad (msg : List Nat) : List Nat :=
  let z := (120 - ((msg.length + 1) % 64)) % 64
  msg ++ [0x80] ++ List.replicate z 0 ++ leBytes8 (8 * msg.length)

/-- Accumulate bytes into 64-byte chunks (`acc` holds the current chunk
in reverse). -/
def chunksAux : List Nat → List Nat → List (List Nat)
  | [], acc => if acc.isEmpty then [] else [acc.reverse]
  | b :: rest, acc =>
    if acc.length = 63 then (b :: acc).reverse :: chunksAux rest []
    else chunksAux rest (b :: acc)

/-- Split a byte list into 64-byte chunks. -/
def toChunks (l : List Nat) : List (List Nat) := chunksAux l []

/-- The MD5 digest state of a byte string. -/
def md5Digest (msg : List Nat) : Nat × Nat × Nat × Nat :=
  (toChunks (md5Pad msg)).foldl md5Chunk
    (0x67452301, 0xefcdab89, 0x98badcfe, 0x10325476)

/-- The 4 bytes of a 32-bit word, little-endian. -/
def leBytes4 (w : Nat) : List Nat :=
  [w % 256, (w >>> 8) % 256, (w >>> 16) % 256, (w >>> 24) % 256]

/-- Lower-case hex digit of a nibble. -/
def hexChar (n : Nat) : Char :=
  if n < 10 then Char.ofNat (48 + n) else Char.ofNat (87 + n)

/-- Two hex digits of one byte. -/
def byteHex (b : Nat) : List Char := [hexChar (b / 16), hexChar (b % 16)]

/-- The 16 digest bytes, little-endian word by word. -/
def md5DigestBytes (msg : List Nat) : List Nat :=
  let d := md5Digest msg
  leBytes4 d.1 ++ leBytes4 d.2.1 ++ leBytes4 d.2.2.1 ++ leBytes4 d.2.2.2

/-- `hashlib.md5(msg).hexdigest()` as a character list. -/
def md5HexChars (msg : List Nat) : List Char :=
  ((md5DigestBytes msg).map byteHex).flatten

/-- A lower-case hexadecimal digit. -/
def isHexDigitChar (c : Char) : Bool :=
  c.isDigit || ('a' ≤ c && c ≤ 'f')

/-- UTF-8 encoding of one character (Python `str.encode()`). -/
def utf8EncodeChar (c : Char) : List Nat :=
  let n := c.toNat
  if n < 0x80 then [n]
  else if n < 0x800 then
    [0xc0 ||| (n >>> 6), 0x80 ||| (n &&& 0x3f)]
  else if n < 0x10000 then
    [0xe0 ||| (n >>> 12), 0x80 ||| ((n >>> 6) &&& 0x3f), 0x80 ||| (n &&& 0x3f)]
  else
    [0xf0 ||| (n >>> 18), 0x80 ||| ((n >>> 12) &&& 0x3f),
     0x80 ||| ((n >>> 6) &&& 0x3f), 0x80 ||| (n &&& 0x3f)]

/-- UTF-8 encoding of a string (Python `str.encode()`). -/
def utf8Encode (s : String) : List Nat :=
  (s.data.map utf8EncodeChar).flatten

/-- `QuestionProcessor.generate_uuid`: concatenate the three fields,
MD5-hash, keep the first 12 hex characters. -/
def generate_uuid (question_text type_val year : String) : String :=
  String.mk ((md5HexChars (utf8Encode (question_text ++ type_val ++ year))).take 12)

/-! ### Data model

A stored row (`row_data` in the source) is a list of strings:
uuid, question, question_image_url, the four option (text, image) pairs,
answer, type, year, then `max_tags` tag slots. -/

abbrev Row := List String

/-- The value found under an option key `A`–`D` of a question entry. -/
inductive OptVal where
  | vnone : OptVal
  | vstr (s : String) : OptVal
  | vdict (text image_url : String) : OptVal
deriving DecidableEq

/-- One raw question entry of the YAML document.  `Option` marks key
presence where the source tests `f in q`; plain fields model
`q.get(key, default)`. -/
structure RawQuestion where
  question : String
  image_url : String
  A : Option OptVal
  B : Option OptVal
  C : Option OptVal
  D : Option OptVal
  answer : Option String
  tags : List String
deriving DecidableEq

/-- A parsed YAML document: batch metadata plus the question list.
`type = none` models a missing batch-level `type` key;
`questions = none` models a missing (or null) `questions` key. -/
structure Doc where
  type : Option String
  year : String
  questions : Option (List RawQuestion)
deriving DecidableEq

/-- `QuestionProcessor.parse_option`: an absent or falsy value yields
`('', '')`, a dict yields its `text`/`image_url`, a plain value is kept
as text. -/
def parse_option : Option OptVal → String × String
  | none => ("", "")
  | some .vnone => ("", "")
  | some (.vstr s) => (s, "")
  | some (.vdict t i) => (t, i)

/-- `[f for f in required_fields if f not in q]` for
`required_fields = ['A', 'B', 'C', 'D', 'answer']`. -/
def missing_fields (q : RawQuestion) : List String :=
  (if q.A.isSome then [] else ["A"]) ++
  (if q.B.isSome then [] else ["B"]) ++
  (if q.C.isSome then [] else ["C"]) ++
  (if q.D.isSome then [] else ["D"]) ++
  (if q.answer.isSome then [] else ["answer"])

/-- The errors raised by `QuestionProcessor.load_yaml`:
`FileNotFoundError` and the two `ValueError` schema errors. -/
inductive LoadError where
  | fileNotFound (path : String)
  | missingType
  | noQuestions
deriving DecidableEq

/-- `QuestionProcessor.load_yaml`.  The filesystem is a partial map from
paths to parsed documents (`none` = file absent). -/
def load_yaml (fs : String → Option Doc) (yaml_path : String) :
    Except LoadError Doc :=
  match fs yaml_path with
  | none => .error (.fileNotFound yaml_path)
  | some data =>
    if data.type.isNone then .error .missingType
    else
      match data.questions with
      | none => .error .noQuestions
      | some [] => .error .noQuestions
      | some _ => .ok data

/-! ### Store access -/

/-- The `uuid` column of a row. -/
def rowId (r : Row) : String := r.getD 0 ""

/-- The `question` column of a row. -/
def rowQuestion (r : Row) : String := r.getD 1 ""

/-- The normalized question text of a stored row
(`row.strip().lower()`, as both store readers apply it). -/
def rowNorm (r : Row) : String := normText (rowQuestion r)

/-- `QuestionProcessor.insert_question_db`: the insert commits and
returns `True`, except that a `UNIQUE` violation on the primary key
`uuid` is caught (`sqlite3.IntegrityError`) and reported as `False`
with the table unchanged. -/
def insert_question_db (db : List Row) (question_data : Row) :
    Bool × List Row :=
  if db.any (fun r => rowId r = rowId question_data) then (false, db)
  else (true, db ++ [question_data])

/-- `QuestionProcessor.get_existing_questions_excel`: normalized texts of
the worksheet's question column, skipping falsy (empty) cells. -/
def get_existing_questions_excel (rows : List Row) : List String :=
  rows.filterMap
    (fun r => if rowQuestion r ≠ "" then some (rowNorm r) else none)

/-- `QuestionProcessor.get_existing_questions_db`:
`SELECT question FROM questions`, normalized. -/
def get_existing_questions_db (db : List Row) : List String :=
  db.map rowNorm

/-- Writing a full row of cells at (1-based) worksheet row `idx + 2`,
i.e. 0-based data row `idx`: overwrite if the row exists, extend the
sheet otherwise (openpyxl `ws.cell(row, col, value)` semantics on a
sheet with contiguously filled rows). -/
def wsWriteRow (rows : List Row) (idx : Nat) (r : Row) : List Row :=
  if idx < rows.length then rows.set idx r else rows ++ [r]

/-! ### The per-document processing loop -/

/-- The mutable state of the question loop in
`QuestionProcessor.process_single_file`: the in-memory workbook, the
next write position, the relational table, the duplicate index
(`existing_questions`), and the three counters. -/
structure LoopState where
  excel : List Row
  nextIdx : Nat
  db : List Row
  existing : List String
  added : Nat
  skipped : Nat
  dups : List (Nat × String)
deriving DecidableEq

/-- The number of options among A–D whose parsed (text, image) pair is
('', '').  The source's inner validation loop executes
`skipped_count += 1; continue` once per such option — the `continue`
applies to the inner loop, so it does not abort the question. -/
def failedOptionCount (q : RawQuestion) : Nat :=
  ([parse_option q.A, parse_option q.B, parse_option q.C,
    parse_option q.D].filter (fun p => p.1 = "" && p.2 = "")).length

/-- The `row_data` list built for an accepted record: uuid, stripped
question text, question image URL, the four parsed option pairs,
answer, type, year, then `max_tags` tag slots (tags truncated to
`max_tags`, missing slots empty). -/
def rowData (maxTags : Nat) (ty yr : String) (q : RawQuestion) : Row :=
  [generate_uuid (pyStrip q.question) ty yr, pyStrip q.question, q.image_url,
   (parse_option q.A).1, (parse_option q.A).2,
   (parse_option q.B).1, (parse_option q.B).2,
   (parse_option q.C).1, (parse_option q.C).2,
   (parse_option q.D).1, (parse_option q.D).2,
   q.answer.getD "", ty, yr] ++
  (List.range maxTags).map (fun i => (q.tags.take maxTags).getD i "")

/-- One iteration of the `for idx, q in enumerate(data['questions'], start=1)`
loop of `process_single_file`. -/
def processQuestion (maxTags : Nat) (ty yr : String) (st : LoopState)
    (iq : Nat × RawQuestion) : LoopState :=
  let (idx, q) := iq
  let question_text := pyStrip q.question
  if pyLower question_text ∈ st.existing then
    { st with dups := st.dups ++ [(idx, question_text)],
              skipped := st.skipped + 1 }
  else
    let question_image_url := q.image_url
    if question_text = "" ∧ question_image_url = "" then
      { st with skipped := st.skipped + 1 }
    else if missing_fields q ≠ [] then
      { st with skipped := st.skipped + 1 }
    else
      let skipped2 := st.skipped + failedOptionCount q
      let row_data : Row := rowData maxTags ty yr q
      let excel1 := wsWriteRow st.excel st.nextIdx row_data
      let ins := insert_question_db st.db row_data
      if ins.1 then
        { excel := excel1, nextIdx := st.nextIdx + 1, db := ins.2,
          existing := st.existing ++ [pyLower question_text],
          added := st.added + 1, skipped := skipped2, dups := st.dups }
      else
        { excel := excel1, nextIdx := st.nextIdx, db := ins.2,
          existing := st.existing, added := st.added,
          skipped := skipped2 + 1, dups := st.dups }

/-- The outcome of `process_single_file`: its boolean return value, the
on-disk stores after the call, and the reported counters.  `excel` is
`none` when the spreadsheet file does not exist. -/
structure PSFResult where
  ok : Bool
  excel : Option (List Row)
  db : List Row
  added : Nat
  skipped : Nat
  dups : List (Nat × String)
deriving DecidableEq

/-- `QuestionProcessor.process_single_file`.  The interactive
`input("Skip duplicates? (y/n): ")` is the parameter `promptYes`
(`true` iff the operator answers `y`).  On the decline path the
workbook is not saved, so the on-disk spreadsheet stays `ws`; the
relational table keeps every insert committed during the loop. -/
def process_single_file (maxTags : Nat) (fs : String → Option Doc)
    (excel0 : Option (List Row)) (db0 : List Row) (yaml_path : String)
    (skip_duplicates overwrite_duplicates promptYes : Bool) : PSFResult :=
  match load_yaml fs yaml_path with
  | .error _ => ⟨false, excel0, db0, 0, 0, []⟩
  | .ok data =>
    match excel0 with
    | none => ⟨false, none, db0, 0, 0, []⟩
    | some ws =>
      let existing0 :=
        get_existing_questions_excel ws ++ get_existing_questions_db db0
      let ty := data.type.getD ""
      let yr := data.year
      let qs := data.questions.getD []
      let st0 : LoopState := ⟨ws, ws.length, db0, existing0, 0, 0, []⟩
      let fin := (List.enumFrom 1 qs).foldl (processQuestion maxTags ty yr) st0
      if fin.dups ≠ [] ∧ ¬skip_duplicates ∧ ¬overwrite_duplicates ∧ ¬promptYes
      then ⟨false, some ws, fin.db, fin.added, fin.skipped, fin.dups⟩
      else ⟨true, some fin.excel, fin.db, fin.added, fin.skipped, fin.dups⟩

/-- `QuestionProcessor.process_batch`: process every document in order,
threading the on-disk stores and tallying successes. -/
def process_batch (maxTags : Nat) (fs : String → Option Doc)
    (excel0 : Option (List Row)) (db0 : List Row) (paths : List String)
    (skip_duplicates overwrite_duplicates promptYes : Bool) :
    Nat × Option (List Row) × List Row :=
  paths.foldl
    (fun acc p =>
      let r := process_single_file maxTags fs acc.2.1 acc.2.2 p
        skip_duplicates overwrite_duplicates promptYes
      (acc.1 + (if r.ok then 1 else 0), r.excel, r.db))
    (0, excel0, db0)

/-! ### Concrete scenario inputs -/

/-- A well-formed multiple-choice entry. -/
def qArith : RawQuestion :=
  ⟨"What is 2+2?", "", some (.vstr "3"), some (.vstr "4"), some (.vstr "5"),
   some (.vstr "6"), some "B", []⟩

/-- A single-question document with `type = MCQ`, `year = 2024`. -/
def docArith : Doc := ⟨some "MCQ", "2024", some [qArith]⟩

/-- A filesystem holding `docArith` at `in.yaml`. -/
def fsArith : String → Option Doc :=
  fun p => if p = "in.yaml" then some docArith else none

/-- A second well-formed entry, already present in the stores of the
decline scenario. -/
def qOld : RawQuestion :=
  ⟨"Old question", "", some (.vstr "1"), some (.vstr "2"), some (.vstr "3"),
   some (.vstr "4"), some "A", []⟩

/-- The persisted row of `qOld` (type `MCQ`, year `2024`, 4 tag slots). -/
def rowOld : Row :=
  [generate_uuid "Old question" "MCQ" "2024", "Old question", "",
   "1", "", "2", "", "3", "", "4", "", "A", "MCQ", "2024", "", "", "", ""]

/-- A document holding one duplicate (`qOld`) and one new question. -/
def docDup : Doc := ⟨some "MCQ", "2024", some [qOld, qArith]⟩

/-- A filesystem holding `docDup` at `in.yaml`. -/
def fsDup : String → Option Doc :=
  fun p => if p = "in.yaml" then some docDup else none

/-- An entry whose option `A` is present but has neither text nor an
image reference. -/
def qBadOpt : RawQuestion :=
  ⟨"Q with bad option", "", some (.vdict "" ""), some (.vstr "b"),
   some (.vstr "c"), some (.vstr "d"), some "B", []⟩

/-- A document holding only `qBadOpt`. -/
def docBadOpt : Doc := ⟨some "MCQ", "2024", some [qBadOpt]⟩

/-- A filesystem holding `docBadOpt` at `in.yaml`. -/
def fsBadOpt : String → Option Doc :=
  fun p => if p = "in.yaml" then some docBadOpt else none

/-- A spreadsheet row of an image-only question: empty question text,
non-empty image reference. -/
def rowImgOnly : Row :=
  ["someuuid", "", "img1.png", "1", "", "2", "", "3", "", "4", "", "A",
   "MCQ", "2024", "", "", "", ""]

/-- An image-only entry (empty question text, image `img2.png`). -/
def qImgA : RawQuestion :=
  ⟨"", "img2.png", some (.vstr "1"), some (.vstr "2"), some (.vstr "3"),
   some (.vstr "4"), some "A", []⟩

/-- A second image-only entry with a different image reference. -/
def qImgB : RawQuestion :=
  ⟨"", "img3.png", some (.vstr "1"), some (.vstr "2"), some (.vstr "3"),
   some (.vstr "4"), some "B", []⟩

/-- A document holding only `qImgA`. -/
def docImg : Doc := ⟨some "MCQ", "2024", some [qImgA]⟩

/-- A filesystem holding `docImg` at `in.yaml`. -/
def fsImg : String → Option Doc :=
  fun p => if p = "in.yaml" then some docImg else none

/-- A directory of three documents: the second is missing the
batch-level `type` field. -/
def fsThree : String → Option Doc :=
  fun p =>
    if p = "a.yaml" then some docArith
    else if p = "b.yaml" then some (⟨none, "2024", some [qOld]⟩ : Doc)
    else if p = "c.yaml" then some (⟨some "MCQ", "2025", some [qOld]⟩ : Doc)
    else none

/-! ### The run invariant used for the uniqueness claim -/

/-- Invariant of the question loop, relative to the initial worksheet
`e0`, initial table `d0` and initial duplicate index `ex0`: the table
grew by the accepted rows `N`, the worksheet additionally holds at most
one trailing row whose relational insert failed, the write position
points at that trailing slot, and the duplicate index is `ex0` plus the
normalized texts of `N` in order. -/
def C3Inv (e0 d0 : List Row) (ex0 : List String) (st : LoopState) : Prop :=
  ∃ N extra,
    st.db = d0 ++ N ∧
    st.excel = e0 ++ N ++ extra ∧
    st.nextIdx = e0.length + N.length ∧
    st.existing = ex0 ++ N.map rowNorm ∧
    (N.map rowNorm).Nodup ∧
    (∀ r ∈ N, rowNorm r ∉ ex0) ∧
    (extra = [] ∨ ∃ r, extra = [r] ∧ rowNorm r ∉ ex0 ++ N.map rowNorm)

/-! ### Helper lemmas: normalization -/

theorem dropWhile_dropWhile (p : Char → Bool) (l : List Char) :
    (l.dropWhile p).dropWhile p = l.dropWhile p := by
  induction l with
  | nil => rfl
  | cons a t ih =>
    by_cases h : p a
    · simp [List.dropWhile_cons, h, ih]
    · simp [List.dropWhile_cons, h]

theorem headNot_dropWhile (p : Char → Bool) (l : List Char) :
    ∀ a t, l.dropWhile p = a :: t → p a = false := by
  induction l with
  | nil => intro a t h; simp [List.dropWhile] at h
  | cons b l' ih =>
    intro a t h
    by_cases hb : p b
    · exact ih a t (by simpa [List.dropWhile_cons, hb] using h)
    · simp [List.dropWhile_cons, hb] at h
      simpa [← h.1] using hb

theorem dropWhile_of_headNot (p : Char → Bool) (l : List Char)
    (h : ∀ a t, l = a :: t → p a = false) : l.dropWhile p = l := by
  cases l with
  | nil => rfl
  | cons a t => simp [List.dropWhile_cons, h a t rfl]

theorem headNot_trimTrail (l : List Char)
    (h : ∀ a t, l = a :: t → isSpaceChar a = false) :
    ∀ a t, trimTrail l = a :: t → isSpaceChar a = false := by
  cases l with
  | nil => intro a t hc; simp [trimTrail] at hc
  | cons b l' =>
    have hb := h b l' rfl
    intro a t hc
    rw [trimTrail] at hc
    rcases hr : trimTrail l' with _ | ⟨c, r⟩ <;> rw [hr] at hc
    · rw [hb] at hc
      simp at hc
      rw [← hc.1]; exact hb
    · rw [List.cons.injEq] at hc
      rw [← hc.1]; exact hb

theorem trimTrail_idem (l : List Char) : trimTrail (trimTrail l) = trimTrail l := by
  induction l with
  | nil => rfl
  | cons a t ih =>
    rcases h : trimTrail t with _ | ⟨b, r⟩
    · by_cases hs : isSpaceChar a
      · simp [trimTrail, h, hs]
      · simp [trimTrail, h, hs]
    · have h2 : trimTrail (a :: t) = a :: b :: r := by
        rw [trimTrail, h]
      have h3 : trimTrail (b :: r) = b :: r := by
        rw [← h, ih, h]
      rw [h2, trimTrail, h3]

theorem stripList_idem (l : List Char) : stripList (stripList l) = stripList l := by
  unfold stripList
  rw [dropWhile_of_headNot isSpaceChar _
        (headNot_trimTrail _ (headNot_dropWhile isSpaceChar l)),
      trimTrail_idem]

theorem pyStrip_idem (s : String) : pyStrip (pyStrip s) = pyStrip s := by
  show String.mk (stripList (stripList s.data)) = String.mk (stripList s.data)
  rw [stripList_idem]

theorem normText_pyStrip (s : String) : normText (pyStrip s) = normText s := by
  unfold normText
  rw [pyStrip_idem]

/-! ### Helper lemmas: string concatenation and the identifier -/

theorem string_data_append (a b : String) : (a ++ b).data = a.data ++ b.data := by
  cases a; cases b; rfl

theorem string_eq_of_data_eq (a b : String) (h : a.data = b.data) : a = b := by
  cases a; cases b; exact congrArg String.mk h

theorem string_append_cancel_right (a b c : String) (h : a ++ c = b ++ c) :
    a = b := by
  apply string_eq_of_data_eq
  have hd := congrArg String.data h
  rw [string_data_append, string_data_append] at hd
  exact List.append_cancel_right hd

theorem string_append_cancel_left (a b c : String) (h : a ++ b = a ++ c) :
    b = c := by
  apply string_eq_of_data_eq
  have hd := congrArg String.data h
  rw [string_data_append, string_data_append] at hd
  exact List.append_cancel_left hd

theorem generate_uuid_length (q t y : String) :
    (generate_uuid q t y).length = 12 := rfl

theorem hexChar_hex : ∀ n, n < 16 → isHexDigitChar (hexChar n) = true := by decide

theorem byteHex_hex (b : Nat) (hb : b < 256) :
    ∀ c ∈ byteHex b, isHexDigitChar c = true := by
  intro c hc
  have h16 : b / 16 < 16 := by omega
  have hm : b % 16 < 16 := by omega
  simp only [byteHex, List.mem_cons, List.not_mem_nil, or_false] at hc
  rcases hc with rfl | rfl
  · exact hexChar_hex _ h16
  · exact hexChar_hex _ hm

theorem leBytes4_lt (w : Nat) : ∀ b ∈ leBytes4 w, b < 256 := by
  simp [leBytes4]
  omega

theorem md5DigestBytes_lt (msg : List Nat) :
    ∀ b ∈ md5DigestBytes msg, b < 256 := by
  intro b hb
  simp only [md5DigestBytes] at hb
  rcases List.mem_append.mp hb with h | h
  · rcases List.mem_append.mp h with h2 | h2
    · rcases List.mem_append.mp h2 with h3 | h3
      · exact leBytes4_lt _ _ h3
      · exact leBytes4_lt _ _ h3
    · exact leBytes4_lt _ _ h2
  · exact leBytes4_lt _ _ h

theorem generate_uuid_hex (q t y : String) :
    ∀ c ∈ (generate_uuid q t y).data, isHexDigitChar c = true := by
  intro c hc
  have hc2 : c ∈ md5HexChars (utf8Encode (q ++ t ++ y)) :=
    List.mem_of_mem_take hc
  simp only [md5HexChars] at hc2
  rcases List.mem_flatten.mp hc2 with ⟨l, hl, hcl⟩
  rcases List.mem_map.mp hl with ⟨b, hb, rfl⟩
  exact byteHex_hex b (md5DigestBytes_lt _ b hb) c hcl

/-! ### Helper lemmas: worksheet writes -/

theorem list_set_append_last {α : Type} (l : List α) (b r : α) :
    (l ++ [b]).set l.length r = l ++ [r] := by
  induction l with
  | nil => rfl
  | cons a t ih => simp [ih]

theorem wsWriteRow_at_end (l : List Row) (r : Row) :
    wsWriteRow l l.length r = l ++ [r] := by
  simp [wsWriteRow]

theorem wsWriteRow_over_last (l : List Row) (b r : Row) :
    wsWriteRow (l ++ [b]) l.length r = l ++ [r] := by
  have hlt : l.length < (l ++ [b]).length := by simp
  simp only [wsWriteRow, if_pos hlt]
  exact list_set_append_last l b r

/-! ### Claims -/

/-- C6: the dual-store append's relational half, `insert_question_db`,
returns whether the insert succeeded.  It returns `false` exactly when
the row's `uuid` equals the `uuid` of a row already in the table — the
`sqlite3.IntegrityError` raised by the `UNIQUE` primary-key constraint
is caught and turned into this non-fatal outcome, with the table left
unchanged (in the embedding the function is total, so no exception
propagates).  On every other outcome the row is appended and `true` is
returned. -/
theorem c6_insert_question_db (db : List Row) (row : Row) :
    ((insert_question_db db row).1 = false ↔ rowId row ∈ db.map rowId) ∧
    ((insert_question_db db row).1 = false →
      (insert_question_db db row).2 = db) ∧
    ((insert_question_db db row).1 = true →
      (insert_question_db db row).2 = db ++ [row]) := by
  by_cases h : db.any (fun r => rowId r = rowId row)
  · refine ⟨⟨fun _ => ?_, fun _ => ?_⟩, fun _ => ?_, fun habs => ?_⟩
    · rcases List.any_eq_true.mp h with ⟨r, hr, he⟩
      exact List.mem_map.mpr ⟨r, hr, of_decide_eq_true he⟩
    · simp [insert_question_db, h]
    · simp [insert_question_db, h]
    · simp [insert_question_db, h] at habs
  · refine ⟨⟨fun habs => ?_, fun hmem => ?_⟩, fun habs => ?_, fun _ => ?_⟩
    · simp [insert_question_db, h] at habs
    · exfalso
      rcases List.mem_map.mp hmem with ⟨r, hr, he⟩
      exact h (List.any_eq_true.mpr ⟨r, hr, decide_eq_true he⟩)
    · simp [insert_question_db, h] at habs
    · simp [insert_question_db, h]

/-- C7: `load_yaml` fails with `FileNotFoundError` when the document is
absent, fails with the `ValueError` for a missing batch-level `type`
field, fails with the `ValueError` for an absent or empty question
list, and otherwise returns the parsed document (batch metadata plus
the ordered question sequence). -/
theorem c7_load_yaml (fs : String → Option Doc) (path : String) :
    (fs path = none → load_yaml fs path = .error (.fileNotFound path)) ∧
    (∀ d, fs path = some d → d.type = none →
      load_yaml fs path = .error .missingType) ∧
    (∀ d, fs path = some d → d.type ≠ none →
      (d.questions = none ∨ d.questions = some []) →
      load_yaml fs path = .error .noQuestions) ∧
    (∀ d q qs, fs path = some d → d.type ≠ none →
      d.questions = some (q :: qs) → load_yaml fs path = .ok d) := by
  refine ⟨fun h => ?_, fun d hd ht => ?_, fun d hd ht hq => ?_,
    fun d q qs hd ht hq => ?_⟩
  · simp [load_yaml, h]
  · simp [load_yaml, hd, ht]
  · have ht2 : d.type.isNone = false := by
      cases hty : d.type
      · exact absurd hty ht
      · rfl
    rcases hq with hq | hq <;> simp [load_yaml, hd, ht2, hq]
  · have ht2 : d.type.isNone = false := by
      cases hty : d.type
      · exact absurd hty ht
      · rfl
    simp [load_yaml, hd, ht2, hq]

/-- C1 (code bug): a run that finds duplicates and is declined at the
confirmation prompt aborts (`False` is returned and the workbook is not
saved, so the on-disk spreadsheet is unchanged), yet the relational
store keeps the row committed for the non-duplicate record earlier in
the same run — the code's own `"Operation cancelled. No changes saved."`
message notwithstanding.  Initial stores hold only `rowOld`; the
document holds the duplicate `qOld` plus the new `qArith`; no automatic
skip/overwrite policy is pre-selected and the operator declines. -/
theorem c1_decline_keeps_committed_db_rows :
    (process_single_file 4 fsDup (some [rowOld]) [rowOld] "in.yaml"
        false false false).ok = false ∧
    (process_single_file 4 fsDup (some [rowOld]) [rowOld] "in.yaml"
        false false false).excel = some [rowOld] ∧
    (process_single_file 4 fsDup (some [rowOld]) [rowOld] "in.yaml"
        false false false).db ≠ [rowOld] ∧
    (process_single_file 4 fsDup (some [rowOld]) [rowOld] "in.yaml"
        false false false).db =
      [rowOld,
       [generate_uuid "What is 2+2?" "MCQ" "2024", "What is 2+2?", "",
        "3", "", "4", "", "5", "", "6", "", "B", "MCQ", "2024",
        "", "", "", ""]] := by
  refine ⟨by decide, by decide, ?_, by decide⟩
  intro h
  have := congrArg List.length h
  simp only [decide_eq_true_eq] at this
  revert this
  decide

/-- C2 (code bug): a record whose option `A` has neither text nor an
image reference is nevertheless written to both stores.  The option
check's `continue` only advances the inner option loop, so after
printing the warning the record's partially-filled row (empty `A`
cells) is still appended to the worksheet and committed to the table:
the run on `docBadOpt` over empty stores persists the row in both
stores instead of skipping the record. -/
theorem c2_malformed_option_row_persisted :
    parse_option qBadOpt.A = ("", "") ∧
    (process_single_file 4 fsBadOpt (some []) [] "in.yaml"
        false false true).ok = true ∧
    (process_single_file 4 fsBadOpt (some []) [] "in.yaml"
        false false true).db =
      [[generate_uuid "Q with bad option" "MCQ" "2024", "Q with bad option",
        "", "", "", "b", "", "c", "", "d", "", "B", "MCQ", "2024",
        "", "", "", ""]] ∧
    (process_single_file 4 fsBadOpt (some []) [] "in.yaml"
        false false true).excel =
      some (process_single_file 4 fsBadOpt (some []) [] "in.yaml"
        false false true).db := by
  refine ⟨rfl, by decide, by decide, by decide⟩

/-- C9 (code bug): the per-record outcomes are not a partition and their
counts do not sum to the record count.  On `docBadOpt` (one record,
whose option `A` is empty) the run counts the record both as skipped
(`skipped_count += 1` in the option loop) and as added (the row is
still inserted), so `added + skipped = 2` over a single record; the
duplicate and malformed outcomes also share the single `skipped_count`
rather than being counted independently. -/
theorem c9_outcome_counts_not_a_partition :
    (docBadOpt.questions.getD []).length = 1 ∧
    (process_single_file 4 fsBadOpt (some []) [] "in.yaml"
        false false true).added = 1 ∧
    (process_single_file 4 fsBadOpt (some []) [] "in.yaml"
        false false true).skipped = 1 ∧
    (process_single_file 4 fsBadOpt (some []) [] "in.yaml"
        false false true).added +
      (process_single_file 4 fsBadOpt (some []) [] "in.yaml"
        false false true).skipped ≠
      (docBadOpt.questions.getD []).length ∧
    (process_single_file 4 fsBadOpt (some []) [] "in.yaml"
        false false true).db.length = 1 := by
  refine ⟨rfl, by decide, by decide, by decide, by decide⟩

/-- C5: ingesting `docArith` (`type=MCQ`, `year=2024`, one well-formed
question) into empty stores succeeds with 1 added and 0 duplicates and
persists exactly one row; immediately re-ingesting the same document
reports 0 added and 1 duplicate and leaves both stores unchanged (the
operator confirms skipping the duplicate). -/
theorem c5_ingest_then_reingest :
    (process_single_file 4 fsArith (some []) [] "in.yaml"
        false false true).ok = true ∧
    (process_single_file 4 fsArith (some []) [] "in.yaml"
        false false true).added = 1 ∧
    (process_single_file 4 fsArith (some []) [] "in.yaml"
        false false true).dups = [] ∧
    (process_single_file 4 fsArith (some []) [] "in.yaml"
        false false true).db.length = 1 ∧
    (process_single_file 4 fsArith
        (process_single_file 4 fsArith (some []) [] "in.yaml"
          false false true).excel
        (process_single_file 4 fsArith (some []) [] "in.yaml"
          false false true).db "in.yaml" false false true).added = 0 ∧
    (process_single_file 4 fsArith
        (process_single_file 4 fsArith (some []) [] "in.yaml"
          false false true).excel
        (process_single_file 4 fsArith (some []) [] "in.yaml"
          false false true).db "in.yaml" false false true).dups =
      [(1, "What is 2+2?")] ∧
    (process_single_file 4 fsArith
        (process_single_file 4 fsArith (some []) [] "in.yaml"
          false false true).excel
        (process_single_file 4 fsArith (some []) [] "in.yaml"
          false false true).db "in.yaml" false false true).db =
      (process_single_file 4 fsArith (some []) [] "in.yaml"
        false false true).db ∧
    (process_single_file 4 fsArith
        (process_single_file 4 fsArith (some []) [] "in.yaml"
          false false true).excel
        (process_single_file 4 fsArith (some []) [] "in.yaml"
          false false true).db "in.yaml" false false true).excel =
      (process_single_file 4 fsArith (some []) [] "in.yaml"
        false false true).excel := by
  refine ⟨by decide, by decide, by decide, by decide, by decide, by decide,
    by decide, by decide⟩

/-- C3 counterexample: the claim fails when a row with empty question
text is present only in the spreadsheet store.  `get_existing_questions_excel`
skips falsy (empty) question cells, so the normalized text `""` of
`rowImgOnly` never enters the duplicate index; ingesting the image-only
record `qImgA` — whose normalized text equals the one already present in
the spreadsheet store — is not classified duplicate, and a second row
with the same (empty) normalized text is persisted, leaving the
spreadsheet's normalized texts non-unique after a successful run. -/
theorem c3_counterexample_empty_text_excel_row :
    normText qImgA.question = rowNorm rowImgOnly ∧
    (process_single_file 4 fsImg (some [rowImgOnly]) [] "in.yaml"
        false false true).ok = true ∧
    (process_single_file 4 fsImg (some [rowImgOnly]) [] "in.yaml"
        false false true).dups = [] ∧
    (process_single_file 4 fsImg (some [rowImgOnly]) [] "in.yaml"
        false false true).added = 1 ∧
    ¬ ((((process_single_file 4 fsImg (some [rowImgOnly]) [] "in.yaml"
        false false true).excel.getD []).map rowNorm).Nodup) := by
  refine ⟨by decide, by decide, by decide, by decide, by decide⟩

/-- C4: `generate_uuid` is deterministic — the same three inputs always
yield the same identifier, which is 12 characters long and entirely
lower-case hexadecimal — and, absent a hash collision (hypothesis
`hnocoll`: the truncated digests of the two concatenations collide only
if the concatenations are equal), changing exactly one of the three
inputs changes the identifier. -/
theorem c4_generate_uuid (q t y q' t' y' : String)
    (hone : (q ≠ q' ∧ t = t' ∧ y = y') ∨ (q = q' ∧ t ≠ t' ∧ y = y') ∨
            (q = q' ∧ t = t' ∧ y ≠ y'))
    (hnocoll : generate_uuid q t y = generate_uuid q' t' y' →
      q ++ t ++ y = q' ++ t' ++ y') :
    generate_uuid q t y = generate_uuid q t y ∧
    (generate_uuid q t y).length = 12 ∧
    (∀ c ∈ (generate_uuid q t y).data, isHexDigitChar c = true) ∧
    generate_uuid q t y ≠ generate_uuid q' t' y' := by
  refine ⟨rfl, generate_uuid_length q t y, generate_uuid_hex q t y, ?_⟩
  intro he
  have hc := hnocoll he
  rcases hone with ⟨hq, ht, hy⟩ | ⟨hq, ht, hy⟩ | ⟨hq, ht, hy⟩
  · subst ht; subst hy
    exact hq (string_append_cancel_right _ _ _
      (string_append_cancel_right _ _ _ hc))
  · subst hq; subst hy
    exact ht (string_append_cancel_left _ _ _
      (string_append_cancel_right _ _ _ hc))
  · subst hq; subst ht
    exact hy (string_append_cancel_left _ _ _ hc)

/-- Witness for C4 at concrete inputs: changing only the question text
changes the identifier. -/
theorem c4_generate_uuid_witness :
    generate_uuid "What is 2+2?" "MCQ" "2024" ≠
      generate_uuid "What is 2+3?" "MCQ" "2024" :=
  (c4_generate_uuid "What is 2+2?" "MCQ" "2024" "What is 2+3?" "MCQ" "2024"
    (Or.inl ⟨by decide, rfl, rfl⟩)
    (fun h => absurd h (by decide))).2.2.2

theorem process_single_file_load_error (maxTags : Nat)
    (fs : String → Option Doc) (excel0 : Option (List Row)) (db0 : List Row)
    (p : String) (sd od py : Bool) (e : LoadError)
    (hfail : load_yaml fs p = .error e) :
    process_single_file maxTags fs excel0 db0 p sd od py =
      ⟨false, excel0, db0, 0, 0, []⟩ := by
  unfold process_single_file
  rw [hfail]

theorem process_single_file_no_excel (maxTags : Nat)
    (fs : String → Option Doc) (db0 : List Row) (p : String)
    (sd od py : Bool) :
    process_single_file maxTags fs none db0 p sd od py =
      ⟨false, none, db0, 0, 0, []⟩ := by
  unfold process_single_file
  rcases load_yaml fs p with e | d <;> rfl

theorem process_batch_no_excel (maxTags : Nat) (fs : String → Option Doc)
    (db0 : List Row) (paths : List String) (sd od py : Bool) :
    process_batch maxTags fs none db0 paths sd od py = (0, none, db0) := by
  unfold process_batch
  induction paths with
  | nil => rfl
  | cons p ps ih =>
    rw [List.foldl_cons]
    simp only [process_single_file_no_excel]
    exact ih

/-- C8: each of the claim's per-document faults aborts only that
document.  A missing document or a schema error (any `load_yaml`
failure) makes `process_single_file` return `False` with both stores
untouched, and so does a store load failure (the spreadsheet file
absent, `excel0 = none`); in either case a directory batch behaves
exactly as if the faulty document were not present, so every subsequent
document is still processed and the tally counts each document's
success or failure independently (with the spreadsheet store absent,
every document aborts and the batch completes with a zero tally and
unchanged stores). -/
theorem c8_batch_isolates_document_faults (maxTags : Nat)
    (fs : String → Option Doc) (excel0 : Option (List Row)) (db0 : List Row)
    (p : String) (pre post : List String) (sd od py : Bool) :
    (∀ e, load_yaml fs p = .error e →
      process_single_file maxTags fs excel0 db0 p sd od py =
        ⟨false, excel0, db0, 0, 0, []⟩) ∧
    (process_single_file maxTags fs none db0 p sd od py =
      ⟨false, none, db0, 0, 0, []⟩) ∧
    (∀ e, load_yaml fs p = .error e →
      process_batch maxTags fs excel0 db0 (pre ++ p :: post) sd od py =
        process_batch maxTags fs excel0 db0 (pre ++ post) sd od py) ∧
    (process_batch maxTags fs none db0 (pre ++ p :: post) sd od py =
      process_batch maxTags fs none db0 (pre ++ post) sd od py) ∧
    (process_batch maxTags fs none db0 (pre ++ p :: post) sd od py =
      (0, none, db0)) := by
  refine ⟨fun e hfail =>
      process_single_file_load_error maxTags fs excel0 db0 p sd od py e hfail,
    process_single_file_no_excel maxTags fs db0 p sd od py,
    fun e hfail => ?_,
    by rw [process_batch_no_excel, process_batch_no_excel],
    process_batch_no_excel maxTags fs db0 _ sd od py⟩
  unfold process_batch
  rw [List.foldl_append, List.foldl_append, List.foldl_cons]
  congr 1
  rw [show ∀ (E : Option (List Row)) (D : List Row),
      process_single_file maxTags fs E D p sd od py = ⟨false, E, D, 0, 0, []⟩
    from fun E D =>
      process_single_file_load_error maxTags fs E D p sd od py e hfail]
  simp

/-- Witness for C8: over the three-document directory `fsThree`, whose
second document is missing the `type` field, the batch result equals the
result on the remaining two documents and exactly 2 documents succeed
(so the batch continued past the faulty one); with the spreadsheet
store absent, the same batch completes with a zero tally and unchanged
stores. -/
theorem c8_batch_witness :
    (process_batch 4 fsThree (some []) [] (["a.yaml"] ++ "b.yaml" :: ["c.yaml"])
        true false true =
      process_batch 4 fsThree (some []) [] (["a.yaml"] ++ ["c.yaml"])
        true false true) ∧
    (process_batch 4 fsThree (some []) [] (["a.yaml"] ++ "b.yaml" :: ["c.yaml"])
        true false true).1 = 2 ∧
    process_batch 4 fsThree none [] (["a.yaml"] ++ "b.yaml" :: ["c.yaml"])
        true false true = (0, none, []) :=
  ⟨(c8_batch_isolates_document_faults 4 fsThree (some []) [] "b.yaml"
      ["a.yaml"] ["c.yaml"] true false true).2.2.1 .missingType rfl,
    by decide,
    (c8_batch_isolates_document_faults 4 fsThree (some []) [] "b.yaml"
      ["a.yaml"] ["c.yaml"] true false true).2.2.2.2⟩

/-! ### Helper lemmas: the question loop -/

theorem processQuestion_existing_mono (maxTags : Nat) (ty yr : String)
    (st : LoopState) (iq : Nat × RawQuestion) (x : String)
    (hx : x ∈ st.existing) :
    x ∈ (processQuestion maxTags ty yr st iq).existing := by
  obtain ⟨idx, q⟩ := iq
  unfold processQuestion
  dsimp only
  split
  · exact hx
  · split
    · exact hx
    · split
      · exact hx
      · split
        · exact List.mem_append_left _ hx
        · exact hx

theorem processQuestion_accepted_existing (maxTags : Nat) (ty yr : String)
    (st : LoopState) (idx : Nat) (q : RawQuestion)
    (hacc : (processQuestion maxTags ty yr st (idx, q)).added = st.added + 1) :
    pyLower (pyStrip q.question) ∈
      (processQuestion maxTags ty yr st (idx, q)).existing := by
  unfold processQuestion at hacc ⊢
  dsimp only at hacc ⊢
  by_cases h1 : pyLower (pyStrip q.question) ∈ st.existing
  · rw [if_pos h1] at hacc
    simp at hacc
  · rw [if_neg h1] at hacc ⊢
    by_cases h2 : pyStrip q.question = "" ∧ q.image_url = ""
    · rw [if_pos h2] at hacc
      simp at hacc
    · rw [if_neg h2] at hacc ⊢
      by_cases h3 : missing_fields q ≠ []
      · rw [if_pos h3] at hacc
        simp at hacc
      · rw [if_neg h3] at hacc ⊢
        split at hacc
        next h4 =>
          rw [if_pos h4]
          exact List.mem_append_right _ (List.mem_singleton.mpr rfl)
        next =>
          simp at hacc

theorem processQuestion_duplicate (maxTags : Nat) (ty yr : String)
    (st : LoopState) (idx : Nat) (q : RawQuestion)
    (hdup : pyLower (pyStrip q.question) ∈ st.existing) :
    processQuestion maxTags ty yr st (idx, q) =
      { st with dups := st.dups ++ [(idx, pyStrip q.question)],
                skipped := st.skipped + 1 } := by
  unfold processQuestion
  dsimp only
  rw [if_pos hdup]

theorem foldl_existing_mono (maxTags : Nat) (ty yr : String)
    (l : List (Nat × RawQuestion)) (st : LoopState) (x : String)
    (hx : x ∈ st.existing) :
    x ∈ (l.foldl (processQuestion maxTags ty yr) st).existing := by
  induction l generalizing st with
  | nil => exact hx
  | cons a l ih =>
    exact ih _ (processQuestion_existing_mono maxTags ty yr st a x hx)

/-- C10: once a record with empty stripped question text has been
accepted at step `i` of a run, the empty normalized text is in the
duplicate index, and stays there through any subsequent steps `mid`; a
later record `qj` with empty stripped question text — whatever its image
reference — is therefore classified duplicate: the step only records it
in the duplicate list and the skip counter, leaving the worksheet, the
table and the accepted count unchanged, so it is never persisted. -/
theorem c10_empty_text_poisons_duplicate_index (maxTags : Nat)
    (ty yr : String) (st : LoopState) (i j : Nat) (qi qj : RawQuestion)
    (mid : List (Nat × RawQuestion))
    (hi : pyStrip qi.question = "")
    (hacc : (processQuestion maxTags ty yr st (i, qi)).added = st.added + 1)
    (hj : pyStrip qj.question = "") :
    processQuestion maxTags ty yr
        (mid.foldl (processQuestion maxTags ty yr)
          (processQuestion maxTags ty yr st (i, qi))) (j, qj) =
      { mid.foldl (processQuestion maxTags ty yr)
          (processQuestion maxTags ty yr st (i, qi)) with
        dups := (mid.foldl (processQuestion maxTags ty yr)
            (processQuestion maxTags ty yr st (i, qi))).dups ++ [(j, "")],
        skipped := (mid.foldl (processQuestion maxTags ty yr)
            (processQuestion maxTags ty yr st (i, qi))).skipped + 1 } := by
  have h1 : pyLower (pyStrip qi.question) ∈
      (processQuestion maxTags ty yr st (i, qi)).existing :=
    processQuestion_accepted_existing maxTags ty yr st i qi hacc
  rw [hi] at h1
  have h2 : pyLower "" ∈
      ((mid.foldl (processQuestion maxTags ty yr)
        (processQuestion maxTags ty yr st (i, qi)))).existing :=
    foldl_existing_mono maxTags ty yr mid _ _ h1
  have h3 := processQuestion_duplicate maxTags ty yr
    (mid.foldl (processQuestion maxTags ty yr)
      (processQuestion maxTags ty yr st (i, qi))) j qj (by rw [hj]; exact h2)
  rw [h3, hj]

/-- Witness for C10: in a run over empty stores, `qImgA` (image-only) is
accepted first, and the image-only `qImgB` with a different image
reference is then classified duplicate. -/
theorem c10_witness :
    processQuestion 4 "MCQ" "2024"
        (([] : List (Nat × RawQuestion)).foldl (processQuestion 4 "MCQ" "2024")
          (processQuestion 4 "MCQ" "2024" ⟨[], 0, [], [], 0, 0, []⟩ (1, qImgA)))
        (2, qImgB) =
      { ([] : List (Nat × RawQuestion)).foldl (processQuestion 4 "MCQ" "2024")
          (processQuestion 4 "MCQ" "2024" ⟨[], 0, [], [], 0, 0, []⟩ (1, qImgA)) with
        dups := (([] : List (Nat × RawQuestion)).foldl
            (processQuestion 4 "MCQ" "2024")
            (processQuestion 4 "MCQ" "2024" ⟨[], 0, [], [], 0, 0, []⟩
              (1, qImgA))).dups ++ [(2, "")],
        skipped := (([] : List (Nat × RawQuestion)).foldl
            (processQuestion 4 "MCQ" "2024")
            (processQuestion 4 "MCQ" "2024" ⟨[], 0, [], [], 0, 0, []⟩
              (1, qImgA))).skipped + 1 } :=
  c10_empty_text_poisons_duplicate_index 4 "MCQ" "2024"
    ⟨[], 0, [], [], 0, 0, []⟩ 1 2 qImgA qImgB [] (by decide) (by decide)
    (by decide)

theorem insert_question_db_true (db : List Row) (row : Row)
    (h : (insert_question_db db row).1 = true) :
    (insert_question_db db row).2 = db ++ [row] := by
  unfold insert_question_db at h ⊢
  by_cases hc : db.any (fun r => rowId r = rowId row)
  · rw [if_pos hc] at h
    exact absurd h (by simp)
  · rw [if_neg hc]

theorem insert_question_db_false (db : List Row) (row : Row)
    (h : (insert_question_db db row).1 = false) :
    (insert_question_db db row).2 = db := by
  unfold insert_question_db at h ⊢
  by_cases hc : db.any (fun r => rowId r = rowId row)
  · rw [if_pos hc]
  · rw [if_neg hc] at h
    exact absurd h (by simp)

theorem rowQuestion_rowData (maxTags : Nat) (ty yr : String)
    (q : RawQuestion) :
    rowQuestion (rowData maxTags ty yr q) = pyStrip q.question := rfl

theorem rowNorm_rowData (maxTags : Nat) (ty yr : String) (q : RawQuestion) :
    rowNorm (rowData maxTags ty yr q) = pyLower (pyStrip q.question) := by
  unfold rowNorm
  rw [rowQuestion_rowData]
  unfold normText
  rw [pyStrip_idem]

theorem C3Inv_step (e0 d0 : List Row) (ex0 : List String) (maxTags : Nat)
    (ty yr : String) (st : LoopState) (iq : Nat × RawQuestion)
    (hinv : C3Inv e0 d0 ex0 st) :
    C3Inv e0 d0 ex0 (processQuestion maxTags ty yr st iq) := by
  obtain ⟨idx, q⟩ := iq
  obtain ⟨N, extra, hdb, hex, hidx, hexi, hnd, hne, hextra⟩ := hinv
  unfold processQuestion
  dsimp only
  by_cases h1 : pyLower (pyStrip q.question) ∈ st.existing
  · rw [if_pos h1]
    exact ⟨N, extra, hdb, hex, hidx, hexi, hnd, hne, hextra⟩
  · rw [if_neg h1]
    by_cases h2 : pyStrip q.question = "" ∧ q.image_url = ""
    · rw [if_pos h2]
      exact ⟨N, extra, hdb, hex, hidx, hexi, hnd, hne, hextra⟩
    · rw [if_neg h2]
      by_cases h3 : missing_fields q ≠ []
      · rw [if_pos h3]
        exact ⟨N, extra, hdb, hex, hidx, hexi, hnd, hne, hextra⟩
      · rw [if_neg h3]
        have hwrite : wsWriteRow st.excel st.nextIdx (rowData maxTags ty yr q) =
            (e0 ++ N) ++ [rowData maxTags ty yr q] := by
          rcases hextra with hE | ⟨r0, hE, _⟩
          · have hex' : st.excel = e0 ++ N := by
              rw [hex, hE, List.append_nil]
            have hidx' : st.nextIdx = (e0 ++ N).length := by
              rw [hidx, List.length_append]
            rw [hex', hidx', wsWriteRow_at_end]
          · have hex' : st.excel = (e0 ++ N) ++ [r0] := by rw [hex, hE]
            have hidx' : st.nextIdx = (e0 ++ N).length := by
              rw [hidx, List.length_append]
            rw [hex', hidx', wsWriteRow_over_last]
        split
        next h4 =>
          refine ⟨N ++ [rowData maxTags ty yr q], [], ?_, ?_, ?_, ?_, ?_, ?_,
            Or.inl rfl⟩
          · rw [insert_question_db_true _ _ h4, hdb, List.append_assoc]
          · rw [hwrite, List.append_nil, List.append_assoc]
          · rw [hidx, List.length_append]
            simp [Nat.add_assoc]
          · rw [hexi, List.map_append, ← List.append_assoc]
            simp [rowNorm_rowData]
          · rw [List.map_append]
            refine List.Nodup.append hnd (by simp) ?_
            intro a ha hb
            simp only [List.map_cons, List.map_nil, rowNorm_rowData,
              List.mem_singleton] at hb
            subst hb
            exact h1 (hexi ▸ List.mem_append_right _ ha)
          · intro r hr
            rcases List.mem_append.mp hr with hr | hr
            · exact hne r hr
            · simp only [List.mem_singleton] at hr
              subst hr
              rw [rowNorm_rowData]
              intro hmem
              exact h1 (hexi ▸ List.mem_append_left _ hmem)
        next h4 =>
          have h4' : (insert_question_db st.db (rowData maxTags ty yr q)).1 = false := by
            revert h4
            cases (insert_question_db st.db (rowData maxTags ty yr q)).1 <;> simp
          refine ⟨N, [rowData maxTags ty yr q], ?_, ?_, hidx, hexi, hnd, hne,
            Or.inr ⟨_, rfl, ?_⟩⟩
          · rw [insert_question_db_false _ _ h4', hdb]
          · rw [hwrite]
          · rw [rowNorm_rowData, ← hexi]
            exact h1

theorem C3Inv_foldl (e0 d0 : List Row) (ex0 : List String) (maxTags : Nat)
    (ty yr : String) (l : List (Nat × RawQuestion)) (st : LoopState)
    (hinv : C3Inv e0 d0 ex0 st) :
    C3Inv e0 d0 ex0 (l.foldl (processQuestion maxTags ty yr) st) := by
  induction l generalizing st with
  | nil => exact hinv
  | cons a l ih =>
    exact ih _ (C3Inv_step e0 d0 ex0 maxTags ty yr st a hinv)

theorem C3Inv_conclusions (e0 d0 : List Row) (ex0 : List String)
    (st : LoopState) (hinv : C3Inv e0 d0 ex0 st)
    (hdb : (d0.map rowNorm).Nodup) (hws : (e0.map rowNorm).Nodup)
    (hsub_db : ∀ r ∈ d0, rowNorm r ∈ ex0)
    (hsub_ws : ∀ r ∈ e0, rowNorm r ∈ ex0) :
    (st.db.map rowNorm).Nodup ∧ (st.excel.map rowNorm).Nodup ∧
    (∀ r ∈ st.db, r ∈ d0 ∨ rowNorm r ∉ ex0) ∧
    (∀ r ∈ st.excel, r ∈ e0 ∨ rowNorm r ∉ ex0) := by
  obtain ⟨N, extra, hdbN, hexN, _, _, hnd, hne, hextra⟩ := hinv
  have hdisj_dN : List.Disjoint (d0.map rowNorm) (N.map rowNorm) := by
    intro a ha hb
    rcases List.mem_map.mp ha with ⟨r, hr, rfl⟩
    rcases List.mem_map.mp hb with ⟨r2, hr2, heq⟩
    exact hne r2 hr2 (heq ▸ hsub_db r hr)
  have hdisj_wN : List.Disjoint (e0.map rowNorm) (N.map rowNorm) := by
    intro a ha hb
    rcases List.mem_map.mp ha with ⟨r, hr, rfl⟩
    rcases List.mem_map.mp hb with ⟨r2, hr2, heq⟩
    exact hne r2 hr2 (heq ▸ hsub_ws r hr)
  refine ⟨?_, ?_, ?_, ?_⟩
  · rw [hdbN, List.map_append]
    exact List.Nodup.append hdb hnd hdisj_dN
  · rw [hexN, List.map_append, List.map_append]
    refine List.Nodup.append (List.Nodup.append hws hnd hdisj_wN) ?_ ?_
    · rcases hextra with rfl | ⟨r, rfl, _⟩
      · simp
      · simp
    · rcases hextra with rfl | ⟨r, rfl, hr⟩
      · intro a _ hb
        simp at hb
      · intro a ha hb
        simp only [List.map_cons, List.map_nil, List.mem_singleton] at hb
        subst hb
        rcases List.mem_append.mp ha with ha | ha
        · rcases List.mem_map.mp ha with ⟨w, hw, heq⟩
          exact hr (List.mem_append_left _ (heq ▸ hsub_ws w hw))
        · exact hr (List.mem_append_right _ ha)
  · intro r hr
    rcases List.mem_append.mp (hdbN ▸ hr) with hr | hr
    · exact Or.inl hr
    · exact Or.inr (hne r hr)
  · intro r hr
    rcases List.mem_append.mp (hexN ▸ hr) with hr | hr
    · rcases List.mem_append.mp hr with hr | hr
      · exact Or.inl hr
      · exact Or.inr (hne r hr)
    · rcases hextra with rfl | ⟨r0, hE, hr0⟩
      · simp at hr
      · rw [hE] at hr
        simp only [List.mem_singleton] at hr
        subst hr
        exact Or.inr (fun hmem => hr0 (List.mem_append_left _ hmem))

/-- C3 (amended): at the end of any run, the normalized question texts
of the relational store and of the spreadsheet store are each
duplicate-free, provided they were initially duplicate-free and — the
amendment — every spreadsheet row with empty question text also occurs,
by normalized text, in the relational store (the spreadsheet reader
skips empty cells, so such a row alone does not enter the duplicate
index, so the original claim fails without this proviso).  Moreover, no newly persisted row in
either store carries a normalized text that was already in the
duplicate index built from the two stores, and a record whose
normalized text is in the duplicate index — including texts accepted
earlier in the same run — is classified duplicate and leaves the
stores, the write position and the accepted count unchanged. -/
theorem c3_run_preserves_normalized_uniqueness (maxTags : Nat)
    (fs : String → Option Doc) (ws db0 : List Row) (path : String)
    (sd od py : Bool)
    (hdb : (db0.map rowNorm).Nodup)
    (hws : (ws.map rowNorm).Nodup)
    (hcover : ∀ r ∈ ws, rowQuestion r = "" → rowNorm r ∈ db0.map rowNorm) :
    ((process_single_file maxTags fs (some ws) db0 path sd od py).db.map
      rowNorm).Nodup ∧
    ((((process_single_file maxTags fs (some ws) db0 path sd od py).excel.getD
      []).map rowNorm).Nodup) ∧
    (∀ r ∈ (process_single_file maxTags fs (some ws) db0 path sd od py).db,
      r ∈ db0 ∨ rowNorm r ∉
        get_existing_questions_excel ws ++ get_existing_questions_db db0) ∧
    (∀ r ∈ (process_single_file maxTags fs (some ws) db0 path
        sd od py).excel.getD [],
      r ∈ ws ∨ rowNorm r ∉
        get_existing_questions_excel ws ++ get_existing_questions_db db0) ∧
    (∀ (ty yr : String) (st : LoopState) (idx : Nat) (q : RawQuestion),
      pyLower (pyStrip q.question) ∈ st.existing →
      processQuestion maxTags ty yr st (idx, q) =
        { st with dups := st.dups ++ [(idx, pyStrip q.question)],
                  skipped := st.skipped + 1 }) := by
  have hsub_ws : ∀ r ∈ ws, rowNorm r ∈
      get_existing_questions_excel ws ++ get_existing_questions_db db0 := by
    intro r hr
    by_cases hq : rowQuestion r = ""
    · exact List.mem_append_right _ (hcover r hr hq)
    · refine List.mem_append_left _ ?_
      exact List.mem_filterMap.mpr ⟨r, hr, by simp [hq]⟩
  have hsub_db : ∀ r ∈ db0, rowNorm r ∈
      get_existing_questions_excel ws ++ get_existing_questions_db db0 :=
    fun r hr => List.mem_append_right _ (List.mem_map_of_mem rowNorm hr)
  have hdup := fun (ty yr : String) (st : LoopState) (idx : Nat)
      (q : RawQuestion) (h : pyLower (pyStrip q.question) ∈ st.existing) =>
    processQuestion_duplicate maxTags ty yr st idx q h
  unfold process_single_file
  rcases hload : load_yaml fs path with e | data
  · exact ⟨hdb, hws, fun r hr => Or.inl hr, fun r hr => Or.inl hr, hdup⟩
  · dsimp only
    have hinv0 : C3Inv ws db0
        (get_existing_questions_excel ws ++ get_existing_questions_db db0)
        ⟨ws, ws.length, db0,
          get_existing_questions_excel ws ++ get_existing_questions_db db0,
          0, 0, []⟩ :=
      ⟨[], [], by simp, by simp, by simp, by simp, by simp, by simp,
        Or.inl rfl⟩
    have hfin := C3Inv_foldl ws db0
      (get_existing_questions_excel ws ++ get_existing_questions_db db0)
      maxTags (data.type.getD "") data.year
      (List.enumFrom 1 (data.questions.getD []))
      ⟨ws, ws.length, db0,
        get_existing_questions_excel ws ++ get_existing_questions_db db0,
        0, 0, []⟩ hinv0
    have hc := C3Inv_conclusions ws db0
      (get_existing_questions_excel ws ++ get_existing_questions_db db0)
      _ hfin hdb hws hsub_db hsub_ws
    split
    · exact ⟨hc.1, hws, hc.2.2.1, fun r hr => Or.inl hr, hdup⟩
    · exact ⟨hc.1, hc.2.1, hc.2.2.1, hc.2.2.2, hdup⟩

/-- Witness for C3 (amended) at concrete inputs: after ingesting
`docArith` into empty stores the relational store's normalized texts
are duplicate-free. -/
theorem c3_run_witness :
    ((process_single_file 4 fsArith (some []) [] "in.yaml"
      false false true).db.map rowNorm).Nodup :=
  (c3_run_preserves_normalized_uniqueness 4 fsArith [] [] "in.yaml"
    false false true (by simp) (by simp) (by simp)).1
